import Mathlib

/-!
Verification of the avatar image-source resolution and retry logic of
`src/components/views/avatars/BaseAvatar.tsx` (matrix-react-sdk).

The component is embedded shallowly:

* `calculateUrls` embeds the `calculateUrls` helper.  The read of the global
  setting `SettingsStore.getValue("lowBandwidth")` is made an explicit
  boolean parameter `lowBandwidth`.  JavaScript's
  `Array.from(new Set(_urls))` keeps the first occurrence of each element,
  which is embedded as `dedupKeepFirst`.
* The state of the `useImageUrl` hook (`imageUrls` from `useState`,
  `urlsIndex` from `useState`, together with the previous values of the
  `useEffect` dependencies `[url, JSON.stringify(urls)]`) is the structure
  `HookState`.  The event handlers `onError` and `onClientSync` and the
  input-change effect `updateInputs` are functions on that state.
* `JSON.stringify` applied to an optional array of strings is embedded as
  `jstr` (with the standard JSON string escaping); React compares the
  previous and current dependency values with `Object.is`, embedded as
  equality of the `Option String` results.
* `imageUrl` embeds the read `imageUrls[urlsIndex]`, which in JavaScript
  yields `undefined` out of bounds, hence an `Option String`.
* The render branching of `BaseAvatar` is embedded as `renderAvatar`,
  producing a `Rendered` value that records which branch was taken and
  the data fed to it.  Calls to the external collaborators
  (`AvatarLogic.defaultAvatarUrlForString`, `AvatarLogic.getInitialLetter`)
  are recorded by the key they are invoked with.
-/

namespace BaseAvatar

/-- First-occurrence-preserving deduplication, the behaviour of
`Array.from(new Set(_urls))` in JavaScript: `seen` accumulates the
elements already emitted. -/
def dedupKeepFirst (seen : List String) : List String → List String
  | [] => []
  | x :: xs =>
    if x ∈ seen then dedupKeepFirst seen xs
    else x :: dedupKeepFirst (x :: seen) xs

/-- Embedding of `calculateUrls(url, urls)` from `BaseAvatar.tsx`
(lines 48–64).  The global `SettingsStore.getValue("lowBandwidth")` is the
explicit parameter `lowBandwidth`.  `if (url)` is a JavaScript truthiness
test, so a `some ""` primary url is not prepended.  `urls || []` maps an
absent fallback list to `[]`. -/
def calculateUrls (lowBandwidth : Bool) (url : Option String)
    (urls : Option (List String)) : List String :=
  let us : List String :=
    if lowBandwidth then []
    else
      let base := urls.getD []
      match url with
      | some u => if u = "" then base else u :: base
      | none => base
  dedupKeepFirst [] us

/-- The state held by the `useImageUrl` hook: the two `useState` cells
(`imageUrls`, `urlsIndex`) plus the previous values of the `useEffect`
dependency array `[url, JSON.stringify(urls)]`, kept here as the raw
inputs `propsUrl`, `propsUrls`. -/
structure HookState where
  propsUrl : Option String
  propsUrls : Option (List String)
  imageUrls : List String
  urlsIndex : Nat
  deriving Repr, DecidableEq

/-- Initial hook state: `useState(calculateUrls(url, urls))` and
`useState(0)`. -/
def initState (lowBandwidth : Bool) (url : Option String)
    (urls : Option (List String)) : HookState :=
  { propsUrl := url
    propsUrls := urls
    imageUrls := calculateUrls lowBandwidth url urls
    urlsIndex := 0 }

/-- Embedding of the `onError` callback (line 70–72):
`setIndex(i => i + 1)`.  There is no saturation in the source. -/
def onError (s : HookState) : HookState :=
  { s with urlsIndex := s.urlsIndex + 1 }

/-- Embedding of the `onClientSync` callback (lines 80–87): the client is
considered reconnected when `syncState !== "ERROR" && prevState !== syncState`,
and then `setIndex(0)`. -/
def onClientSync (syncState prevState : String) (s : HookState) : HookState :=
  let reconnected := syncState ≠ "ERROR" ∧ prevState ≠ syncState
  if reconnected then { s with urlsIndex := 0 } else s

/-- Embedding of `imageUrls[urlsIndex]` (line 90): JavaScript indexing
out of bounds yields `undefined`, hence `Option String`. -/
def imageUrl (s : HookState) : Option String :=
  s.imageUrls.get? s.urlsIndex

/-! ### A model of `JSON.stringify` on arrays of strings

The `useEffect` dependency array is `[url, JSON.stringify(urls)]`
(line 77).  To reason about that comparison we model `JSON.stringify`
applied to an array of strings: each string is serialised between double
quotes with the standard JSON escapes (`\"`, `\\`, `\b`, `\t`, `\n`,
`\f`, `\r`, and `\u00XX` for the remaining control characters), and the
items are joined with commas between square brackets.  A decoder is
provided to establish injectivity of the serialisation, which is what the
dependency comparison relies on. -/

/-- Lower-case hexadecimal digit for `n < 16`. -/
def hexDig (n : Nat) : Char :=
  if n < 10 then Char.ofNat ('0'.toNat + n) else Char.ofNat ('a'.toNat + (n - 10))

/-- Value of a hexadecimal digit character. -/
def hexVal (c : Char) : Option Nat :=
  if '0' ≤ c ∧ c ≤ '9' then some (c.toNat - '0'.toNat)
  else if 'a' ≤ c ∧ c ≤ 'f' then some (c.toNat - 'a'.toNat + 10)
  else if 'A' ≤ c ∧ c ≤ 'F' then some (c.toNat - 'A'.toNat + 10)
  else none

/-- JSON escape of a single character inside a string literal. -/
def encChar (c : Char) : List Char :=
  if c = '"' then ['\\', '"']
  else if c = '\\' then ['\\', '\\']
  else if c = '\x08' then ['\\', 'b']
  else if c = '\t' then ['\\', 't']
  else if c = '\n' then ['\\', 'n']
  else if c = '\x0c' then ['\\', 'f']
  else if c = '\r' then ['\\', 'r']
  else if c.toNat < 0x20 then
    ['\\', 'u', '0', '0', hexDig (c.toNat / 16), hexDig (c.toNat % 16)]
  else [c]

/-- JSON escape of a character sequence. -/
def encStr (cs : List Char) : List Char :=
  (cs.map encChar).flatten

/-- A serialised string item: the escaped body between double quotes. -/
def encTok (s : String) : List Char :=
  '"' :: (encStr s.data ++ ['"'])

/-- The comma-separated item sequence of a serialised array. -/
def itemsChars : List String → List Char
  | [] => []
  | [x] => encTok x
  | x :: y :: tl => encTok x ++ ',' :: itemsChars (y :: tl)

/-- `JSON.stringify` on an array of strings. -/
def stringifyList (xs : List String) : String :=
  String.mk ('[' :: (itemsChars xs ++ [']']))

/-- `JSON.stringify(urls)` where `urls : string[] | undefined`:
`JSON.stringify(undefined)` is `undefined`. -/
def jstr (urls : Option (List String)) : Option String :=
  urls.map stringifyList

/-- Fuelled decoder for a JSON string body (called after the opening
quote); returns the decoded characters and the remainder after the
closing quote. -/
def decStr : Nat → List Char → Option (List Char × List Char)
  | 0, _ => none
  | _ + 1, [] => none
  | fuel + 1, c :: rest =>
    if c = '"' then some ([], rest)
    else if c = '\\' then
      match rest with
      | [] => none
      | e :: r =>
        if e = '"' then (decStr fuel r).map (fun p => ('"' :: p.1, p.2))
        else if e = '\\' then (decStr fuel r).map (fun p => ('\\' :: p.1, p.2))
        else if e = 'b' then (decStr fuel r).map (fun p => ('\x08' :: p.1, p.2))
        else if e = 't' then (decStr fuel r).map (fun p => ('\t' :: p.1, p.2))
        else if e = 'n' then (decStr fuel r).map (fun p => ('\n' :: p.1, p.2))
        else if e = 'f' then (decStr fuel r).map (fun p => ('\x0c' :: p.1, p.2))
        else if e = 'r' then (decStr fuel r).map (fun p => ('\r' :: p.1, p.2))
        else if e = 'u' then
          match r with
          | h1 :: h2 :: h3 :: h4 :: r2 =>
            match hexVal h1, hexVal h2, hexVal h3, hexVal h4 with
            | some a, some b, some x, some y =>
              (decStr fuel r2).map
                (fun p => (Char.ofNat (((a * 16 + b) * 16 + x) * 16 + y) :: p.1, p.2))
            | _, _, _, _ => none
          | _ => none
        else none
    else (decStr fuel rest).map (fun p => (c :: p.1, p.2))

/-- Fuelled decoder for the item sequence of a serialised array,
expecting a closing bracket as the very last character. -/
def decItems : Nat → List Char → Option (List String)
  | 0, _ => none
  | fuel + 1, cs =>
    match cs with
    | '"' :: rest =>
      match decStr (rest.length + 1) rest with
      | some (d, r) =>
        match r with
        | [']'] => some [String.mk d]
        | ',' :: r2 => (decItems fuel r2).map (fun t => String.mk d :: t)
        | _ => none
      | none => none
    | _ => none

/-- Decoder for a serialised array of strings. -/
def decList (cs : List Char) : Option (List String) :=
  match cs with
  | '[' :: rest =>
    match rest with
    | [']'] => some []
    | _ => decItems rest.length rest
  | _ => none

theorem encStr_cons (c : Char) (cs : List Char) :
    encStr (c :: cs) = encChar c ++ encStr cs := by
  simp [encStr]

theorem one_le_encChar_length (c : Char) : 1 ≤ (encChar c).length := by
  unfold encChar
  split_ifs <;> simp

theorem length_le_encStr (cs : List Char) : cs.length ≤ (encStr cs).length := by
  induction cs with
  | nil => simp [encStr]
  | cons c cs ih =>
    rw [encStr_cons]
    have := one_le_encChar_length c
    simp only [List.length_cons, List.length_append]
    omega

theorem hexVal_hexDig (n : Nat) (h : n < 16) : hexVal (hexDig n) = some n := by
  have key : ∀ m : Fin 16, hexVal (hexDig m.val) = some m.val := by decide
  exact key ⟨n, h⟩

theorem decStr_enc (cs : List Char) : ∀ (rest : List Char) (fuel : Nat),
    cs.length < fuel →
    decStr fuel (encStr cs ++ '"' :: rest) = some (cs, rest) := by
  induction cs with
  | nil =>
    intro rest fuel h
    obtain ⟨f, rfl⟩ : ∃ f, fuel = f + 1 := ⟨fuel - 1, by omega⟩
    simp [encStr, decStr]
  | cons c cs ih =>
    intro rest fuel h
    obtain ⟨f, rfl⟩ : ∃ f, fuel = f + 1 := ⟨fuel - 1, by omega⟩
    have hf : cs.length < f := by simp at h; omega
    have ihr := ih rest f hf
    rw [encStr_cons, List.append_assoc]
    by_cases h1 : c = '"'
    · subst h1; simp [encChar, decStr, ihr]
    by_cases h2 : c = '\\'
    · subst h2; simp [encChar, decStr, ihr]
    by_cases h3 : c = '\x08'
    · subst h3; simp [encChar, decStr, ihr]
    by_cases h4 : c = '\t'
    · subst h4; simp [encChar, decStr, ihr]
    by_cases h5 : c = '\n'
    · subst h5; simp [encChar, decStr, ihr]
    by_cases h6 : c = '\x0c'
    · subst h6; simp [encChar, decStr, ihr]
    by_cases h7 : c = '\r'
    · subst h7; simp [encChar, decStr, ihr]
    by_cases h8 : c.toNat < 0x20
    · have henc : encChar c
          = ['\\', 'u', '0', '0', hexDig (c.toNat / 16), hexDig (c.toNat % 16)] := by
        simp [encChar, h1, h2, h3, h4, h5, h6, h7, h8]
      have hd1 : hexVal (hexDig (c.toNat / 16)) = some (c.toNat / 16) :=
        hexVal_hexDig _ (by omega)
      have hd2 : hexVal (hexDig (c.toNat % 16)) = some (c.toNat % 16) :=
        hexVal_hexDig _ (by omega)
      have hv0 : hexVal '0' = some 0 := by decide
      rw [henc]
      simp [decStr, hv0, hd1, hd2, ihr]
      rw [show c.toNat / 16 * 16 + c.toNat % 16 = c.toNat from by omega]
      exact Char.ofNat_toNat c
    · have henc : encChar c = [c] := by
        simp [encChar, h1, h2, h3, h4, h5, h6, h7, h8]
      rw [henc]
      simp [decStr, h1, h2, ihr]

theorem two_le_encTok_length (s : String) : 2 ≤ (encTok s).length := by
  simp [encTok]

theorem length_le_itemsChars : ∀ xs : List String, xs.length ≤ (itemsChars xs).length := by
  intro xs
  induction xs with
  | nil => simp [itemsChars]
  | cons x tl ih =>
    cases tl with
    | nil =>
      have := two_le_encTok_length x
      simp only [itemsChars, List.length_cons, List.length_nil]
      omega
    | cons y tl' =>
      have h1 := two_le_encTok_length x
      simp only [itemsChars, List.length_append, List.length_cons] at ih ⊢
      omega

theorem decItems_items : ∀ (xs : List String) (fuel : Nat), xs ≠ [] →
    xs.length ≤ fuel →
    decItems fuel (itemsChars xs ++ [']']) = some xs := by
  intro xs
  induction xs with
  | nil => intro fuel h; exact absurd rfl h
  | cons x tl ih =>
    intro fuel _ hlen
    have hlen' : tl.length + 1 ≤ fuel := by simpa using hlen
    obtain ⟨f, rfl⟩ : ∃ f, fuel = f + 1 := ⟨fuel - 1, by omega⟩
    cases tl with
    | nil =>
      have hshape : itemsChars [x] ++ [']']
          = '"' :: (encStr x.data ++ '"' :: [']']) := by
        simp [itemsChars, encTok]
      rw [hshape]
      have hlt : x.data.length < (encStr x.data ++ '"' :: [']']).length + 1 := by
        have := length_le_encStr x.data
        simp only [List.length_append, List.length_cons]
        omega
      have hmk : String.mk x.data = x := by cases x; rfl
      simp only [decItems]
      rw [decStr_enc x.data [']'] _ hlt]
      simp [hmk]
    | cons y tl' =>
      have hshape : itemsChars (x :: y :: tl') ++ [']']
          = '"' :: (encStr x.data ++ '"' :: (',' :: (itemsChars (y :: tl') ++ [']']))) := by
        simp [itemsChars, encTok]
      rw [hshape]
      have hlt : x.data.length
          < (encStr x.data ++ '"' :: (',' :: (itemsChars (y :: tl') ++ [']']))).length + 1 := by
        have := length_le_encStr x.data
        simp only [List.length_append, List.length_cons]
        omega
      have hmk : String.mk x.data = x := by cases x; rfl
      have hrec := ih f (by simp) (by simp at hlen ⊢; omega)
      simp only [decItems]
      rw [decStr_enc x.data (',' :: (itemsChars (y :: tl') ++ [']'])) _ hlt]
      simp [hmk, hrec]

theorem decList_stringifyList (xs : List String) :
    decList (stringifyList xs).data = some xs := by
  cases xs with
  | nil => rfl
  | cons x tl =>
    obtain ⟨t, ht⟩ : ∃ t, itemsChars (x :: tl) ++ [']'] = '"' :: t := by
      cases tl <;> exact ⟨_, rfl⟩
    have hfuel : (x :: tl).length ≤ ('"' :: t).length := by
      rw [← ht]
      have := length_le_itemsChars (x :: tl)
      simp only [List.length_append, List.length_cons] at this ⊢
      omega
    have hdec := decItems_items (x :: tl) ('"' :: t).length (by simp)
      hfuel
    rw [ht] at hdec
    have hdata : (stringifyList (x :: tl)).data = '[' :: '"' :: t := by
      simp [stringifyList, ht]
    rw [hdata]
    simpa [decList] using hdec

theorem stringifyList_injective : Function.Injective stringifyList := by
  intro xs ys h
  have h1 := decList_stringifyList xs
  have h2 := decList_stringifyList ys
  rw [h, h2] at h1
  exact (Option.some_inj.mp h1).symm

theorem jstr_injective : Function.Injective jstr := by
  intro a b h
  cases a with
  | none => cases b with
    | none => rfl
    | some l => simp [jstr] at h
  | some l => cases b with
    | none => simp [jstr] at h
    | some l2 =>
      simp only [jstr, Option.map] at h
      rw [stringifyList_injective (Option.some_inj.mp h)]

/-- Embedding of the `useEffect` of lines 74–77.  React re-runs the
effect exactly when the dependency array `[url, JSON.stringify(urls)]`
differs (element-wise `Object.is`) from the previous render's; the
effect then executes `setUrls(calculateUrls(url, urls))` and
`setIndex(0)`.  Otherwise the state cells keep their values (the props
fields track the latest inputs either way). -/
def updateInputs (lowBandwidth : Bool) (url : Option String)
    (urls : Option (List String)) (s : HookState) : HookState :=
  if url ≠ s.propsUrl ∨ jstr urls ≠ jstr s.propsUrls then
    { propsUrl := url
      propsUrls := urls
      imageUrls := calculateUrls lowBandwidth url urls
      urlsIndex := 0 }
  else
    { s with propsUrl := url, propsUrls := urls }

/-- The `ResizeMethod` type of `Avatar.ts` ("crop" | "scale"). -/
inductive ResizeMethod where
  | crop
  | scale
  deriving Repr, DecidableEq

/-- The props of `BaseAvatar` that the embedded render logic can
observe (lines 31–46).  `onClick` records whether a click handler is
supplied, which is all the render branching inspects.  `inputRef` and
`style` are opaque runtime objects passed through unchanged and are not
modelled. -/
structure Props where
  name : String
  idName : Option String := none
  title : Option String := none
  url : Option String := none
  urls : Option (List String) := none
  width : Nat := 40
  height : Nat := 40
  resizeMethod : ResizeMethod := ResizeMethod.crop
  defaultToInitialLetter : Bool := true
  onClick : Bool := false
  className : Option String := none
  deriving Repr, DecidableEq

/-- JavaScript falsiness of a `string | undefined` value: `undefined`
and the empty string are falsy. -/
def jsFalsyStr (o : Option String) : Bool :=
  match o with
  | none => true
  | some s => s = ""

/-- The key handed to `AvatarLogic.defaultAvatarUrlForString` in the
placeholder branch: `idName || name` (line 120), where `||` falls
through on falsy values, so an empty `idName` also yields `name`. -/
def avatarKey (idName : Option String) (name : String) : String :=
  match idName with
  | some s => if s = "" then name else s
  | none => name

/-- The observable outcome of one `BaseAvatar` render: which branch was
taken and the data fed to it.  In the placeholder branch `colorKey` is
the key passed to `AvatarLogic.defaultAvatarUrlForString` and
`initialKey` the name passed to `AvatarLogic.getInitialLetter`; in the
image branch `src` is the `src` attribute (possibly `undefined`).  The
`interactive` flag records the `onClick` branching (an
`AccessibleButton` versus a plain element). -/
inductive Rendered where
  | placeholder (interactive : Bool) (colorKey : String) (initialKey : String)
      (width height : Nat) (className : Option String)
  | image (interactive : Bool) (src : Option String) (width height : Nat)
      (className : Option String) (title : Option String)
  deriving Repr, DecidableEq

/-- Embedding of the render branching of `BaseAvatar` (lines 114–183):
the placeholder branch is taken exactly when `!imageUrl &&
defaultToInitialLetter` (JavaScript truthiness on `imageUrl`); otherwise
an image element with `src = imageUrl` is produced.  Within each branch
the presence of `onClick` selects the interactive variant. -/
def renderAvatar (p : Props) (resolved : Option String) : Rendered :=
  if jsFalsyStr resolved ∧ p.defaultToInitialLetter then
    Rendered.placeholder p.onClick (avatarKey p.idName p.name) p.name
      p.width p.height p.className
  else
    Rendered.image p.onClick resolved p.width p.height p.className p.title

/-- The URL List Builder exactly as §4.1 of the spec words it (the
comparison definition for the refinement claim about `calculateUrls`):
start from `fallbackUrls` (or empty if absent); if `primaryUrl` is
present, prepend it; deduplicate preserving first occurrence order. -/
def specBuild (url : Option String) (urls : Option (List String)) : List String :=
  dedupKeepFirst []
    (match url with
     | some u => u :: urls.getD []
     | none => urls.getD [])

theorem onError_iterate (k : Nat) (s : HookState) :
    onError^[k] s = { s with urlsIndex := s.urlsIndex + k } := by
  induction k with
  | zero => rfl
  | succ k ih => rw [Function.iterate_succ_apply', ih]; rfl

/-- C1: for every candidate list built from the inputs, the resolved
candidate is the first list element initially; after `k` load failures
it is the `k`-th list element (so each failure advances it to the next
one); once the list length is reached the resolved candidate is absent,
and any number of further load failures is handled (the handler is
total) with the resolved candidate remaining absent. -/
theorem C1_failure_chain (lb : Bool) (url : Option String)
    (urls : Option (List String)) :
    imageUrl (initState lb url urls) = (calculateUrls lb url urls).head? ∧
    (∀ k : Nat, imageUrl (onError^[k] (initState lb url urls))
      = (calculateUrls lb url urls).get? k) ∧
    ∀ j : Nat,
      imageUrl (onError^[(calculateUrls lb url urls).length + j] (initState lb url urls))
        = none := by
  refine ⟨?_, ?_, ?_⟩
  · rw [← List.get?_zero]
    rfl
  · intro k
    rw [onError_iterate]
    simp [imageUrl, initState]
  · intro j
    rw [onError_iterate]
    simp only [imageUrl, initState]
    exact List.get?_eq_none.mpr (by omega)

/-- C2: a connectivity event resets the cursor to 0 exactly when the
current sync state is not `"ERROR"` and differs from the previous one;
when the states coincide or the current state is `"ERROR"`, the whole
hook state is left unchanged — for every cursor value, including the
exhausted state. -/
theorem C2_reconnect_reset (s : HookState) (syncState prevState : String) :
    (syncState ≠ "ERROR" ∧ prevState ≠ syncState →
      onClientSync syncState prevState s = { s with urlsIndex := 0 }) ∧
    (syncState = "ERROR" ∨ prevState = syncState →
      onClientSync syncState prevState s = s) ∧
    (s.urlsIndex ≠ 0 →
      ((onClientSync syncState prevState s).urlsIndex = 0 ↔
        syncState ≠ "ERROR" ∧ prevState ≠ syncState)) := by
  unfold onClientSync
  by_cases h : syncState ≠ "ERROR" ∧ prevState ≠ syncState
  · refine ⟨fun _ => by simp [h], fun hc => ?_, fun hi => by simp [h]⟩
    rcases h with ⟨h1, h2⟩
    rcases hc with hc | hc
    · exact absurd hc h1
    · exact absurd hc h2
  · exact ⟨fun hc => (h hc).elim, fun _ => by simp [h], fun hi => by simp [h, hi]⟩

/-- C2 witness: with candidate list `["A","B"]` exhausted (cursor 2), a
transition from `"ERROR"` to `"SYNCING"` resets the cursor, while a
transition to `"ERROR"` leaves the state unchanged. -/
theorem C2_reconnect_reset_witness :
    onClientSync "SYNCING" "ERROR" ⟨none, none, ["A", "B"], 2⟩
      = ⟨none, none, ["A", "B"], 0⟩ ∧
    onClientSync "ERROR" "SYNCING" ⟨none, none, ["A", "B"], 2⟩
      = ⟨none, none, ["A", "B"], 2⟩ :=
  ⟨(C2_reconnect_reset ⟨none, none, ["A", "B"], 2⟩ "SYNCING" "ERROR").1
      (by refine ⟨?_, ?_⟩ <;> decide),
   (C2_reconnect_reset ⟨none, none, ["A", "B"], 2⟩ "ERROR" "SYNCING").2.1
      (Or.inl rfl)⟩

/-- C3: whenever the primary url or the fallback list changes as a
value (the `useEffect` dependencies compare `url` by `Object.is` and
`urls` via `JSON.stringify`, which is injective on string arrays), the
candidate list is rebuilt from the new inputs and the cursor is reset
to 0, whatever its current value. -/
theorem C3_input_change_resets (lb : Bool) (url : Option String)
    (urls : Option (List String)) (s : HookState)
    (h : url ≠ s.propsUrl ∨ urls ≠ s.propsUrls) :
    updateInputs lb url urls s =
      { propsUrl := url
        propsUrls := urls
        imageUrls := calculateUrls lb url urls
        urlsIndex := 0 } := by
  unfold updateInputs
  rw [if_pos]
  rcases h with h | h
  · exact Or.inl h
  · exact Or.inr fun hj => h (jstr_injective hj)

/-- C3 witness: changing the inputs mid-retry (cursor 5) rebuilds the
list and resets the cursor. -/
theorem C3_input_change_resets_witness :
    updateInputs false (some "X") (some ["Y", "X"]) ⟨some "A", some ["B"], ["A", "B"], 5⟩
      = ⟨some "X", some ["Y", "X"], ["X", "Y"], 0⟩ :=
  C3_input_change_resets false (some "X") (some ["Y", "X"])
    ⟨some "A", some ["B"], ["A", "B"], 5⟩ (Or.inl (by decide))

/-- C4 counterexample to the claim as stated: with candidate list
`["A","B"]` (length 2), a third load failure drives the cursor to 3,
which exceeds the list length — the increment in the source does not
saturate. -/
theorem C4_counterexample :
    (onError^[3] (initState false (some "A") (some ["B"]))).urlsIndex = 3 ∧
    (calculateUrls false (some "A") (some ["B"])).length = 2 := by
  constructor
  · rw [onError_iterate]; rfl
  · rfl

/-- C4 amended: each load failure increments the cursor by exactly 1
and nothing bounds it, so it can exceed the list length; the invariant
that actually holds is that whenever the cursor is at or past the list
length the resolved candidate is absent, so the unbounded cursor never
causes an out-of-bounds read of a candidate. -/
theorem C4_cursor_increment (s : HookState) :
    (onError s).urlsIndex = s.urlsIndex + 1 ∧
    (s.imageUrls.length ≤ (onError s).urlsIndex → imageUrl (onError s) = none) := by
  refine ⟨rfl, fun h => ?_⟩
  simp only [imageUrl, onError] at h ⊢
  exact List.get?_eq_none.mpr h

/-- C4 witness: a failure on a one-candidate list moves the cursor from
0 to 1 and leaves no resolved candidate. -/
theorem C4_cursor_increment_witness :
    (onError ⟨none, none, ["A"], 0⟩).urlsIndex = 0 + 1 ∧
    imageUrl (onError ⟨none, none, ["A"], 0⟩) = none :=
  ⟨(C4_cursor_increment ⟨none, none, ["A"], 0⟩).1,
   (C4_cursor_increment ⟨none, none, ["A"], 0⟩).2 (by decide)⟩

/-- C5: with the low-bandwidth setting on, the URL list builder returns
the empty list for every primary url and every fallback list. -/
theorem C5_lowBandwidth_empty (url : Option String) (urls : Option (List String)) :
    calculateUrls true url urls = [] := rfl

/-- C6 counterexample to the claim as stated: for the present but empty
primary url `some ""`, the builder does not prepend it (JavaScript
`if (url)` tests truthiness, and `""` is falsy), so the output differs
from the spec's builder, which prepends any present primary url. -/
theorem C6_counterexample :
    calculateUrls false (some "") (some ["B"]) ≠ specBuild (some "") (some ["B"]) := by
  decide

/-- C6 amended: for `bandwidthSaving=false` the builder returns the
fallback urls (empty if absent) with the primary url prepended when it
is present and non-empty, deduplicated keeping the first occurrence: on
any non-empty (or absent) primary url it agrees with the spec's
builder, and a present but empty primary url is dropped — the result is
the same as with no primary url at all, the deduplicated fallbacks;
both cited examples hold. -/
theorem C6_build_spec :
    (∀ (url : Option String) (urls : Option (List String)), url ≠ some "" →
      calculateUrls false url urls = specBuild url urls) ∧
    (∀ urls : Option (List String),
      calculateUrls false (some "") urls = specBuild none urls) ∧
    calculateUrls false (some "A") (some ["B", "A", "C"]) = ["A", "B", "C"] ∧
    calculateUrls false none (some ["A", "A"]) = ["A"] := by
  refine ⟨fun url urls h => ?_, fun urls => rfl, by decide, by decide⟩
  unfold calculateUrls specBuild
  cases url with
  | none => rfl
  | some u =>
    have hu : ¬u = "" := fun he => h (by rw [he])
    simp [hu]

/-- C6 witness: on a non-empty primary url the builder agrees with the
spec's builder. -/
theorem C6_build_spec_witness :
    calculateUrls false (some "A") (some ["B"]) = specBuild (some "A") (some ["B"]) :=
  C6_build_spec.1 (some "A") (some ["B"]) (by decide)

/-- C7: with no explicit identity key, an empty display name, the
placeholder default enabled and no resolved candidate, the render takes
the placeholder branch with the empty string as the color-generator
key (and as the initial-letter source); `renderAvatar` is a total
function, so rendering this configuration cannot throw. -/
theorem C7_empty_name_placeholder (p : Props) (resolved : Option String)
    (h1 : p.idName = none) (h2 : p.name = "")
    (h3 : p.defaultToInitialLetter = true) (h4 : resolved = none) :
    renderAvatar p resolved =
      Rendered.placeholder p.onClick "" "" p.width p.height p.className := by
  subst h4
  simp [renderAvatar, jsFalsyStr, h3, avatarKey, h1, h2]

/-- C7 witness: the default-props configuration with empty name renders
an empty-string-keyed placeholder. -/
theorem C7_empty_name_placeholder_witness :
    renderAvatar { name := "" } none
      = Rendered.placeholder false "" "" 40 40 none :=
  C7_empty_name_placeholder { name := "" } none rfl rfl rfl rfl

/-- C8: when `defaultToInitialLetter` is false and no candidate
resolves, the placeholder branch is never taken: the output is the
image node (with `undefined` source), never a placeholder node. -/
theorem C8_no_placeholder (p : Props) (resolved : Option String)
    (h1 : p.defaultToInitialLetter = false) (h2 : resolved = none) :
    renderAvatar p resolved =
      Rendered.image p.onClick none p.width p.height p.className p.title ∧
    ∀ (b : Bool) (key ik : String) (w ht : Nat) (cn : Option String),
      renderAvatar p resolved ≠ Rendered.placeholder b key ik w ht cn := by
  subst h2
  constructor
  · simp [renderAvatar, h1]
  · intro b key ik w ht cn
    simp [renderAvatar, h1]

/-- C8 witness: with the placeholder default off and nothing resolved,
the concrete render is the non-interactive image node. -/
theorem C8_no_placeholder_witness :
    renderAvatar { name := "n", defaultToInitialLetter := false } none
      = Rendered.image false none 40 40 none none :=
  (C8_no_placeholder { name := "n", defaultToInitialLetter := false } none rfl rfl).1

/-- C9: two prop records that differ only in `resizeMethod` render
identically on every resolved candidate — the field is destructured and
never used (source line 39: "resizeMethod not actually used"). -/
theorem C9_resizeMethod_inert (p : Props) (rm1 rm2 : ResizeMethod)
    (resolved : Option String) :
    renderAvatar { p with resizeMethod := rm1 } resolved
      = renderAvatar { p with resizeMethod := rm2 } resolved := rfl

/-- C10: the load-failure and connectivity handlers change only the
cursor — the stored candidate list and the tracked inputs are untouched
for every state — and re-running the input effect with unchanged inputs
leaves the candidate list unchanged as well. -/
theorem C10_frame (s : HookState) (syncState prevState : String) (lb : Bool) :
    (onError s).imageUrls = s.imageUrls ∧
    (onError s).propsUrl = s.propsUrl ∧
    (onError s).propsUrls = s.propsUrls ∧
    (onClientSync syncState prevState s).imageUrls = s.imageUrls ∧
    (onClientSync syncState prevState s).propsUrl = s.propsUrl ∧
    (onClientSync syncState prevState s).propsUrls = s.propsUrls ∧
    (updateInputs lb s.propsUrl s.propsUrls s).imageUrls = s.imageUrls := by
  refine ⟨rfl, rfl, rfl, ?_, ?_, ?_, ?_⟩
  · by_cases h : syncState ≠ "ERROR" ∧ prevState ≠ syncState <;> simp [onClientSync, h]
  · by_cases h : syncState ≠ "ERROR" ∧ prevState ≠ syncState <;> simp [onClientSync, h]
  · by_cases h : syncState ≠ "ERROR" ∧ prevState ≠ syncState <;> simp [onClientSync, h]
  · simp [updateInputs]

end BaseAvatar
